import Mathlib

set_option linter.unusedVariables false

/-!
Shallow embedding of the grappy discrete-event simulation core:
`src/scheduler.rs` (simulated time, the event model and the `Scheduler`)
and `src/sim.rs` (the process-wide id counter and the `Simulation` driver).

Embedding conventions:
* Rust `Duration` values are non-negative and totally ordered; they are
  embedded as `Nat` nanosecond counts, so `SimTime` and `SimTimeDelta`
  are `Nat` with explicit named operations.
* `Box<dyn Any>` payloads are embedded as a type parameter `α`; the
  `Environment` state bag as a type parameter `ε`; the algorithm-specific
  state of a `dyn Component` as a type parameter `κ` together with a
  record `ComponentOps` of its capability methods (the vtable of the
  trait object).
* A Rust panic (`assert!` failure, `Option::unwrap` on `None`, a `match`
  with no applicable arm) is embedded as `none` of an `Option` result.
* Rust's `BinaryHeap<ScheduledEvent>` under the reversed comparator
  (`self.time.cmp(&other.time).reverse()`) pops some element of minimal
  `time`; the relative order of equal-time elements is unspecified in the
  source.  It is embedded as a `List` kept in insertion order whose pop
  removes the leftmost minimal-time element, one concrete refinement of
  the unspecified tie-break.
-/

abbrev ComponentId : Type := Nat

abbrev ChannelId : Type := Nat

/-- `SimTime` (scheduler.rs) wraps a `Duration`; embedded as a nanosecond count. -/
abbrev SimTime : Type := Nat

/-- `SimTimeDelta` (scheduler.rs) wraps a `Duration` offset; embedded as nanoseconds. -/
abbrev SimTimeDelta : Type := Nat

def NO_DELTA : SimTimeDelta := 0

def ROUND_DELTA : SimTimeDelta := 1000000000

/-- `SimTime::advance_to`: `assert!(self.time <= new_time.time)` then assign;
the failed assertion (a Rust panic) is the `none` case. -/
def SimTime.advance_to (t new_time : SimTime) : Option SimTime :=
  if t ≤ new_time then some new_time else none

/-- `SimTime::is_zero`: both the seconds and the nanoseconds of the duration
are zero, i.e. the whole nanosecond count is zero. -/
def SimTime.is_zero (t : SimTime) : Bool := t == 0

/-- `EventType` (scheduler.rs) with the three event payload structs
(`ProcessEvent`, `MessageSendEvent`, `MessageRcvEvent`) inlined as
constructor fields, in source field order. -/
inductive EventType (α : Type) where
  | ProcessEvent (sender receiver : ComponentId) (event : α)
  | MsgSendEvent (sender : ComponentId) (channel : ChannelId) (message : α)
  | MsgRcvEvent (channel : ChannelId) (receiver : ComponentId) (message : α)
  | EndSimulation
deriving DecidableEq

/-- Whether an event is the `EndSimulation` sentinel. -/
def EventType.isEnd {α : Type} : EventType α → Bool
  | .EndSimulation => true
  | _ => false

/-- `ScheduledEvent` (scheduler.rs): a queue element `(time, event)`. -/
structure ScheduledEvent (α : Type) where
  time : SimTime
  event : EventType α
deriving DecidableEq

/-- `SimStatus` (scheduler.rs). -/
inductive SimStatus where
  | Ok
  | Failure
deriving DecidableEq

/-- `Scheduler` (scheduler.rs): the event heap, the current-time cursor, the
environment field (held but never touched by any scheduler method) and the
sticky status flag. -/
structure Scheduler (α ε : Type) where
  events : List (ScheduledEvent α)
  curr_time : SimTime
  env : ε
  sim_status : SimStatus
deriving DecidableEq

/-- `BinaryHeap::push`: the list model appends, keeping insertion order. -/
def heapPush {α : Type} (l : List (ScheduledEvent α)) (e : ScheduledEvent α) :
    List (ScheduledEvent α) :=
  l ++ [e]

/-- `BinaryHeap::pop` under `ScheduledEvent`'s reversed `Ord`: removes the
leftmost event of minimal time (`none` on the empty heap). -/
def popMin {α : Type} : List (ScheduledEvent α) →
    Option (ScheduledEvent α × List (ScheduledEvent α))
  | [] => none
  | e :: rest =>
    match popMin rest with
    | none => some (e, [])
    | some (m, rest2) =>
      if e.time ≤ m.time then some (e, rest) else some (m, e :: rest2)

/-- `Scheduler::new`. -/
def Scheduler.new {α ε : Type} [Inhabited ε] : Scheduler α ε :=
  { events := [], curr_time := 0, env := default, sim_status := .Ok }

/-- `Scheduler::get_curr_time`. -/
def Scheduler.get_curr_time {α ε : Type} (s : Scheduler α ε) : SimTime :=
  s.curr_time

/-- `Scheduler::next_event`: on `Failure` status or an empty heap return
`EndSimulation` (leaving the state untouched); otherwise pop the minimal
event, `advance_to` its time (panic = `none`) and return its payload. -/
def Scheduler.next_event {α ε : Type} (s : Scheduler α ε) :
    Option (EventType α × Scheduler α ε) :=
  match s.sim_status with
  | .Failure => some (.EndSimulation, s)
  | .Ok =>
    match popMin s.events with
    | none => some (.EndSimulation, s)
    | some (e, rest) =>
      match SimTime.advance_to s.curr_time e.time with
      | none => none
      | some t => some (e.event, { s with events := rest, curr_time := t })

/-- `Scheduler::send_msg_delayed`: push a `MsgSendEvent` at `curr_time + timedelta`. -/
def Scheduler.send_msg_delayed {α ε : Type} (s : Scheduler α ε)
    (timedelta : SimTimeDelta) (sender : ComponentId) (channel : ChannelId)
    (message : α) : Scheduler α ε :=
  { s with events :=
      heapPush s.events ⟨s.curr_time + timedelta, .MsgSendEvent sender channel message⟩ }

/-- `Scheduler::send_msg` = `send_msg_delayed` with `NO_DELTA`. -/
def Scheduler.send_msg {α ε : Type} (s : Scheduler α ε) (sender : ComponentId)
    (channel : ChannelId) (message : α) : Scheduler α ε :=
  s.send_msg_delayed NO_DELTA sender channel message

/-- `Scheduler::sched_receive_msg`: push a `MsgRcvEvent` at `curr_time + timedelta`. -/
def Scheduler.sched_receive_msg {α ε : Type} (s : Scheduler α ε)
    (timedelta : SimTimeDelta) (receiver : ComponentId) (channel : ChannelId)
    (message : α) : Scheduler α ε :=
  { s with events :=
      heapPush s.events ⟨s.curr_time + timedelta, .MsgRcvEvent channel receiver message⟩ }

/-- `Scheduler::sched_self_event`: `assert!(self.curr_time.is_zero())` is the
`none` case; on success push a `ProcessEvent` from `process` to itself at
`curr_time + timedelta`.  The dummy payload `Box::new(std::ptr::null::<usize>())`
is embedded as `default`. -/
def Scheduler.sched_self_event {α ε : Type} [Inhabited α] (s : Scheduler α ε)
    (timedelta : SimTimeDelta) (process : ComponentId) : Option (Scheduler α ε) :=
  if SimTime.is_zero s.curr_time then
    some { s with events :=
            heapPush s.events ⟨s.curr_time + timedelta, .ProcessEvent process process default⟩ }
  else none

/-- `Scheduler::sim_error`: set the sticky `Failure` status. -/
def Scheduler.sim_error {α ε : Type} (s : Scheduler α ε) : Scheduler α ε :=
  { s with sim_status := .Failure }

/-- `generate_next_id` (sim.rs): `ID_COUNTER.fetch_add(1, SeqCst)` on the
process-wide `static ID_COUNTER: AtomicUsize`; the atomic is embedded as an
explicitly threaded `Nat` state, and `fetch_add` returns the old value. -/
def generate_next_id (g : Nat) : Nat × Nat :=
  (g, g + 1)

/-- The initial value of the process-wide `static ID_COUNTER` in sim.rs:
`AtomicUsize::new(1)`, initialized once at process start. -/
def ID_COUNTER_INIT : Nat := 1

/-- A `HashMap<usize, V>` is embedded as an association list; insertion
replaces any earlier binding of the key. -/
abbrev AMap (V : Type) : Type := List (Nat × V)

/-- `HashMap::get` / `get_mut` target: the value bound to `k`, if any. -/
def lookupA {V : Type} (k : Nat) (l : AMap V) : Option V :=
  (l.find? (fun p => p.1 == k)).map Prod.snd

/-- `HashMap::insert`: bind `k` to `v`, dropping any earlier binding of `k`. -/
def insertA {V : Type} (k : Nat) (v : V) (l : AMap V) : AMap V :=
  (k, v) :: l.filter (fun p => p.1 != k)

/-- The key set of a map. -/
def keysA {V : Type} (l : AMap V) : List Nat :=
  l.map Prod.fst

/-- Modelled from the spec: `channel.rs` is not under `src/`.  A `Channel`
"stores exactly two endpoint ComponentIds and its own delay policy" (the
delay is fixed at construction time for the channel instance, whether the
policy is a constant or randomized at build time). -/
structure Channel where
  id : ChannelId
  left : ComponentId
  right : ComponentId
  delay : SimTimeDelta
deriving DecidableEq

/-- Modelled from the spec: `Channel::new(channel_id, p0, p1)` (called by
`Simulation::add_channel`) constructs the channel for the two endpoints; the
construction-time delay chosen by the channel's policy is passed explicitly. -/
def Channel.new (id : ChannelId) (p0 p1 : ComponentId) (delay : SimTimeDelta) : Channel :=
  { id := id, left := p0, right := p1, delay := delay }

/-- Modelled from the spec: `channel.rs` is not under `src/`.
`Channel::message_from(sender, payload, scheduler)` requires `sender` to be
one of the two registered endpoints (a violation is a panic, `none`),
computes the other endpoint and calls `sched_receive_msg` with the
channel's own construction-time delay; the payload is routed uninspected. -/
def Channel.message_from {α ε : Type} (c : Channel) (sender : ComponentId)
    (message : α) (s : Scheduler α ε) : Option (Scheduler α ε) :=
  if sender = c.left then
    some (s.sched_receive_msg c.delay c.right c.id message)
  else if sender = c.right then
    some (s.sched_receive_msg c.delay c.left c.id message)
  else none

/-- The capability surface of a `dyn Component` (trait `Component`), the
vtable of the trait object: `κ` is the component's own state, and every
method may mutate the component, the scheduler and the environment exactly
as the `&mut` receivers in the Rust signatures allow. -/
structure ComponentOps (κ ε α : Type) where
  init : κ → Scheduler α ε → ε → κ × Scheduler α ε × ε
  process_event : κ → ComponentId → α → Scheduler α ε → ε → κ × Scheduler α ε × ε
  receive_msg : κ → ChannelId → α → Scheduler α ε → ε → κ × Scheduler α ε × ε
  add_channel : κ → ChannelId → κ
  terminate : κ → ε → κ × ε

/-- `ComponentsMap` (sim.rs): `HashMap<usize, Box<dyn Component>>`. -/
abbrev ComponentsMap (κ : Type) : Type := AMap κ

/-- `ChannelMap` (sim.rs): `HashMap<usize, Box<Channel>>`. -/
abbrev ChannelMap : Type := AMap Channel

/-- `Simulation` (sim.rs): the component map, the channel map, the scheduler
and the environment.  The scheduler field's Rust type is `RoundScheduler`,
whose definition is not under `src/`; it is modelled (from the spec's single
Scheduler, whose fields `events` and `curr_time` are exactly the ones
`Simulation::step` reads and writes) by the `Scheduler` of scheduler.rs. -/
structure Simulation (κ ε α : Type) where
  components : ComponentsMap κ
  channels : ChannelMap
  scheduler : Scheduler α ε
  env : ε
deriving DecidableEq

/-- `impl Default for Simulation`: empty maps, a fresh scheduler, a default
environment.  The process-wide id counter is NOT part of this state: it is a
`static` initialized at process start, not at `Simulation` construction. -/
def Simulation.mkDefault {κ ε α : Type} [Inhabited ε] : Simulation κ ε α :=
  { components := [], channels := [], scheduler := Scheduler.new, env := default }

/-- `Simulation::add_process`: mint an id from the shared counter `g`, have
the builder (state `bst`, body `build_component`) build the component for
that id against the environment, and register it.  Returns the new counter,
the new simulation, the new builder state and the minted `ComponentId`. -/
def Simulation.add_process {κ ε α β : Type} (g : Nat) (sim : Simulation κ ε α)
    (bst : β) (build_component : β → ComponentId → ε → β × κ × ε) :
    Nat × Simulation κ ε α × β × ComponentId :=
  let idg := generate_next_id g
  let b := build_component bst idg.1 sim.env
  (idg.2,
   { sim with components := insertA idg.1 b.2.1 sim.components, env := b.2.2 },
   b.1,
   idg.1)

/-- `Simulation::add_channel`: mint an id, register `Channel::new(id, p0, p1)`
(the construction-time delay of the missing `Channel::new` body is supplied
by the policy `pol`), then `add_channel` on both endpoint components looked
up with `unwrap` (a missing endpoint is a panic, `none`).  Returns the new
counter, the new simulation and the minted `ChannelId`. -/
def Simulation.add_channel {κ ε α : Type} (ops : ComponentOps κ ε α)
    (pol : ChannelId → SimTimeDelta) (g : Nat) (sim : Simulation κ ε α)
    (p0 p1 : ComponentId) : Option (Nat × Simulation κ ε α × ChannelId) :=
  let idg := generate_next_id g
  let channels2 := insertA idg.1 (Channel.new idg.1 p0 p1 (pol idg.1)) sim.channels
  match lookupA p0 sim.components with
  | none => none
  | some c0 =>
    let comps1 := insertA p0 (ops.add_channel c0 idg.1) sim.components
    match lookupA p1 comps1 with
    | none => none
    | some c1 =>
      some (idg.2,
            { sim with channels := channels2,
                       components := insertA p1 (ops.add_channel c1 idg.1) comps1 },
            idg.1)

/-- `Simulation::call_init`: dispatch `init` to every component, threading
the scheduler and the environment in map order. -/
def callInitAll {κ ε α : Type} (ops : ComponentOps κ ε α) :
    ComponentsMap κ → Scheduler α ε → ε → ComponentsMap κ × Scheduler α ε × ε
  | [], sch, env => ([], sch, env)
  | (k, c) :: rest, sch, env =>
    let r := ops.init c sch env
    let rr := callInitAll ops rest r.2.1 r.2.2
    ((k, r.1) :: rr.1, rr.2.1, rr.2.2)

/-- `Simulation::call_init` on the whole simulation state. -/
def Simulation.call_init {κ ε α : Type} (ops : ComponentOps κ ε α)
    (sim : Simulation κ ε α) : Simulation κ ε α :=
  let r := callInitAll ops sim.components sim.scheduler sim.env
  { sim with components := r.1, scheduler := r.2.1, env := r.2.2 }

/-- `Simulation::step` (sim.rs): pop directly from the scheduler's raw event
heap — NOT via `Scheduler::next_event`, so the sticky `sim_status` flag is
never consulted here.  An empty heap returns `false`.  A popped event with
time earlier than the clock is a failed assertion (`none`); otherwise the
clock is advanced to the event time if later.  The event is then routed by
kind to the target component or channel, each looked up with an unguarded
`unwrap` (a missing target is a panic, `none`).  The source `match` has no
arm for `EndSimulation` (such an event is never stored); reaching it is
embedded as `none`. -/
def Simulation.step {κ ε α : Type} (ops : ComponentOps κ ε α)
    (sim : Simulation κ ε α) : Option (Simulation κ ε α × Bool) :=
  match popMin sim.scheduler.events with
  | none => some (sim, false)
  | some (e, rest) =>
    if e.time < sim.scheduler.curr_time then none
    else
      let sch : Scheduler α ε :=
        { sim.scheduler with
            events := rest,
            curr_time :=
              if sim.scheduler.curr_time < e.time then e.time
              else sim.scheduler.curr_time }
      match e.event with
      | .ProcessEvent sender receiver pl =>
        match lookupA receiver sim.components with
        | none => none
        | some c =>
          let r := ops.process_event c sender pl sch sim.env
          some ({ sim with components := insertA receiver r.1 sim.components,
                           scheduler := r.2.1, env := r.2.2 }, true)
      | .MsgSendEvent sender ch pl =>
        match lookupA ch sim.channels with
        | none => none
        | some chan =>
          match Channel.message_from chan sender pl sch with
          | none => none
          | some sch2 => some ({ sim with scheduler := sch2 }, true)
      | .MsgRcvEvent ch receiver pl =>
        match lookupA receiver sim.components with
        | none => none
        | some c =>
          let r := ops.receive_msg c ch pl sch sim.env
          some ({ sim with components := insertA receiver r.1 sim.components,
                           scheduler := r.2.1, env := r.2.2 }, true)
      | .EndSimulation => none

/-- `Simulation::run`: `while self.step() {}`, with explicit fuel because the
loop need not terminate (components may keep scheduling); `none` is a panic
inside some step or fuel exhaustion. -/
def Simulation.run {κ ε α : Type} (ops : ComponentOps κ ε α) :
    Nat → Simulation κ ε α → Option (Simulation κ ε α)
  | 0, _ => none
  | fuel + 1, sim =>
    match Simulation.step ops sim with
    | none => none
    | some (sim2, true) => Simulation.run ops fuel sim2
    | some (sim2, false) => some sim2

/-- The `for p in self.components.values_mut() { p.terminate(&mut self.env) }`
loop of `Simulation::call_terminate`: apply `terminate` to every component in
map order, threading the environment. -/
def terminateAll {κ ε α : Type} (ops : ComponentOps κ ε α) :
    ComponentsMap κ → ε → ComponentsMap κ × ε
  | [], env => ([], env)
  | (k, c) :: rest, env =>
    let r := ops.terminate c env
    let rr := terminateAll ops rest r.2
    ((k, r.1) :: rr.1, rr.2)

/-- `Simulation::call_terminate`: terminate every component, then
`assert!(validate(&self.components))` on the post-terminate map; a predicate
returning `false` is a fatal panic (`none`). -/
def Simulation.call_terminate {κ ε α : Type} (ops : ComponentOps κ ε α)
    (sim : Simulation κ ε α) (validate : ComponentsMap κ → Bool) :
    Option (Simulation κ ε α) :=
  let r := terminateAll ops sim.components sim.env
  if validate r.1 then
    some { sim with components := r.1, env := r.2 }
  else none

/-- A client-visible scheduling call on the `Scheduler`, or a `next_event`
pop, for reasoning about arbitrary call sequences. -/
inductive SchedOp (α : Type) where
  | sendMsgDelayed (timedelta : SimTimeDelta) (sender : ComponentId)
      (channel : ChannelId) (message : α)
  | schedReceiveMsg (timedelta : SimTimeDelta) (receiver : ComponentId)
      (channel : ChannelId) (message : α)
  | schedSelfEvent (timedelta : SimTimeDelta) (process : ComponentId)
  | popNext

/-- Execute one `SchedOp`; the returned trace records the time of the popped
event when the op is a `popNext` that yields a real (non-`EndSimulation`)
event, and a panic anywhere is `none`. -/
def execOp {α ε : Type} [Inhabited α] (s : Scheduler α ε) :
    SchedOp α → Option (Scheduler α ε × List SimTime)
  | .sendMsgDelayed d sender ch m => some (s.send_msg_delayed d sender ch m, [])
  | .schedReceiveMsg d receiver ch m => some (s.sched_receive_msg d receiver ch m, [])
  | .schedSelfEvent d p =>
    match s.sched_self_event d p with
    | none => none
    | some s2 => some (s2, [])
  | .popNext =>
    match s.next_event with
    | none => none
    | some (ev, s2) => some (s2, if ev.isEnd then [] else [s2.curr_time])

/-- Execute a sequence of `SchedOp`s, concatenating the pop-time traces. -/
def execOps {α ε : Type} [Inhabited α] (s : Scheduler α ε) :
    List (SchedOp α) → Option (Scheduler α ε × List SimTime)
  | [] => some (s, [])
  | op :: ops =>
    match execOp s op with
    | none => none
    | some (s2, tr) =>
      match execOps s2 ops with
      | none => none
      | some (s3, tr2) => some (s3, tr ++ tr2)

/-- A topology-setup call on one `Simulation` (the phase in which ids are
minted from the shared counter). -/
inductive SetupOp where
  | addProcess
  | addChannel (p0 p1 : ComponentId)

/-- Execute a sequence of `SetupOp`s against the threaded process-wide
counter `g`, a builder state and one simulation, recording every minted id
(component and channel ids alike) in call order; `none` is a panic. -/
def execSetup {κ ε α β : Type} (ops : ComponentOps κ ε α)
    (pol : ChannelId → SimTimeDelta) (build_component : β → ComponentId → ε → β × κ × ε) :
    Nat → Simulation κ ε α → β → List SetupOp →
    Option (Nat × Simulation κ ε α × β × List Nat)
  | g, sim, bst, [] => some (g, sim, bst, [])
  | g, sim, bst, .addProcess :: rest =>
    let r := Simulation.add_process g sim bst build_component
    match execSetup ops pol build_component r.1 r.2.1 r.2.2.1 rest with
    | none => none
    | some (g2, sim2, bst2, ids) => some (g2, sim2, bst2, r.2.2.2 :: ids)
  | g, sim, bst, .addChannel p0 p1 :: rest =>
    match Simulation.add_channel ops pol g sim p0 p1 with
    | none => none
    | some (g1, sim1, cid) =>
      match execSetup ops pol build_component g1 sim1 bst rest with
      | none => none
      | some (g2, sim2, bst2, ids) => some (g2, sim2, bst2, cid :: ids)

/-- The scheduler's clock-vs-queue invariant: no queued event lies in the
past of the current-time cursor.  It holds in every state reachable through
the public API and is what makes `advance_to`'s assertion unreachable. -/
def SchedInv {α ε : Type} (s : Scheduler α ε) : Prop :=
  ∀ e ∈ s.events, s.curr_time ≤ e.time

/-- No `EndSimulation` sentinel is stored in the queue (the public API only
ever pushes the three real event kinds). -/
def NoEndStored {α ε : Type} (s : Scheduler α ε) : Prop :=
  ∀ e ∈ s.events, e.event.isEnd = false

/-- Every key registered in the simulation's two maps is below the shared
counter: ids already handed out are strictly smaller than the next mint. -/
def KeysLt {κ ε α : Type} (g : Nat) (sim : Simulation κ ε α) : Prop :=
  (∀ k ∈ keysA sim.components, k < g) ∧ (∀ k ∈ keysA sim.channels, k < g)

/-- A concrete component vtable over tally states: every dispatched call
(`process_event`, `receive_msg`, `terminate`) increments the component's
counter, leaving scheduler and environment alone.  Used to observe, on
concrete runs, how often the driver invokes each capability. -/
def tallyOps : ComponentOps Nat Unit Nat :=
  { init := fun c sch env => (c, sch, env),
    process_event := fun c _ _ sch env => (c + 1, sch, env),
    receive_msg := fun c _ _ sch env => (c + 1, sch, env),
    add_channel := fun c _ => c,
    terminate := fun c env => (c + 1, env) }

/-- A trivial component builder over `Unit`-state components, for exercising
the id-minting path of `add_process` alone. -/
def unitBuild : Unit → ComponentId → Unit → Unit × Unit × Unit :=
  fun bst _ env => (bst, (), env)

theorem popMin_eq_none_iff {α : Type} (l : List (ScheduledEvent α)) :
    popMin l = none ↔ l = [] := by
  cases l with
  | nil => simp [popMin]
  | cons x rest =>
    simp only [popMin]
    constructor
    · intro h
      split at h
      · simp at h
      · split at h <;> simp at h
    · intro h
      simp at h

theorem popMin_mem {α : Type} {l r : List (ScheduledEvent α)} {e : ScheduledEvent α}
    (h : popMin l = some (e, r)) : e ∈ l := by
  induction l generalizing e r with
  | nil => simp [popMin] at h
  | cons x rest ih =>
    simp only [popMin] at h
    split at h
    · simp at h
      simp [h.1]
    · next m r2 heq =>
      split at h
      · simp at h
        simp [h.1]
      · simp at h
        exact List.mem_cons_of_mem x (h.1 ▸ ih heq)

theorem popMin_le {α : Type} {l r : List (ScheduledEvent α)} {e : ScheduledEvent α}
    (h : popMin l = some (e, r)) : ∀ x ∈ l, e.time ≤ x.time := by
  induction l generalizing e r with
  | nil => simp [popMin] at h
  | cons x rest ih =>
    simp only [popMin] at h
    split at h
    · next heq =>
      have hrest : rest = [] := (popMin_eq_none_iff rest).1 heq
      subst hrest
      simp at h
      obtain ⟨rfl, rfl⟩ := h
      intro y hy
      simp at hy
      simp [hy]
    · next m r2 heq =>
      split at h
      · next hle =>
        simp at h
        obtain ⟨rfl, rfl⟩ := h
        intro y hy
        rcases List.mem_cons.1 hy with rfl | hy2
        · exact le_refl _
        · exact le_trans hle (ih heq y hy2)
      · next hgt =>
        simp at h
        obtain ⟨rfl, rfl⟩ := h
        intro y hy
        rcases List.mem_cons.1 hy with rfl | hy2
        · exact le_of_lt (lt_of_not_le hgt)
        · exact ih heq y hy2

theorem popMin_perm {α : Type} {l r : List (ScheduledEvent α)} {e : ScheduledEvent α}
    (h : popMin l = some (e, r)) : l.Perm (e :: r) := by
  induction l generalizing e r with
  | nil => simp [popMin] at h
  | cons x rest ih =>
    simp only [popMin] at h
    split at h
    · next heq =>
      have hrest : rest = [] := (popMin_eq_none_iff rest).1 heq
      subst hrest
      simp at h
      obtain ⟨rfl, rfl⟩ := h
      exact List.Perm.refl _
    · next m r2 heq =>
      split at h
      · simp at h
        obtain ⟨rfl, rfl⟩ := h
        exact List.Perm.refl _
      · simp at h
        obtain ⟨rfl, rfl⟩ := h
        exact List.Perm.trans ((ih heq).cons x) (List.Perm.swap m x r2)

theorem popMin_rest_mem {α : Type} {l r : List (ScheduledEvent α)} {e x : ScheduledEvent α}
    (h : popMin l = some (e, r)) (hx : x ∈ r) : x ∈ l :=
  (popMin_perm h).symm.subset (List.mem_cons_of_mem e hx)

theorem schedInv_new {α ε : Type} [Inhabited ε] : SchedInv (Scheduler.new : Scheduler α ε) := by
  intro e he
  simp [Scheduler.new] at he

theorem schedInv_push {α ε : Type} {s : Scheduler α ε} (hinv : SchedInv s)
    (d : SimTimeDelta) (ev : EventType α) :
    SchedInv { s with events := heapPush s.events ⟨s.curr_time + d, ev⟩ } := by
  intro e he
  simp only [heapPush, List.mem_append, List.mem_singleton] at he
  rcases he with he | rfl
  · exact hinv e he
  · exact Nat.le_add_right _ _

theorem next_event_ok_some {α ε : Type} {s : Scheduler α ε} {e : ScheduledEvent α}
    {rest : List (ScheduledEvent α)} (hst : s.sim_status = .Ok)
    (hpop : popMin s.events = some (e, rest)) (hinv : SchedInv s) :
    s.next_event = some (e.event, { s with events := rest, curr_time := e.time }) := by
  have hle : s.curr_time ≤ e.time := hinv e (popMin_mem hpop)
  simp only [Scheduler.next_event, hst, hpop, SimTime.advance_to, if_pos hle]

theorem chain'_le_of_le {a b : Nat} {l : List Nat} (hba : b ≤ a)
    (h : List.Chain' (· ≤ ·) (a :: l)) : List.Chain' (· ≤ ·) (b :: l) := by
  cases l with
  | nil => simp
  | cons c l2 =>
    rw [List.chain'_cons] at h ⊢
    exact ⟨le_trans hba h.1, h.2⟩

theorem execOp_inv {α ε : Type} [Inhabited α] {s s2 : Scheduler α ε} {op : SchedOp α}
    {tr : List SimTime} (hinv : SchedInv s) (h : execOp s op = some (s2, tr)) :
    SchedInv s2 ∧ s.curr_time ≤ s2.curr_time ∧ ∀ t ∈ tr, t = s2.curr_time := by
  cases op with
  | sendMsgDelayed d sender ch m =>
    simp only [execOp, Scheduler.send_msg_delayed] at h
    simp at h
    obtain ⟨rfl, rfl⟩ := h
    exact ⟨schedInv_push hinv d _, le_refl _, by simp⟩
  | schedReceiveMsg d receiver ch m =>
    simp only [execOp, Scheduler.sched_receive_msg] at h
    simp at h
    obtain ⟨rfl, rfl⟩ := h
    exact ⟨schedInv_push hinv d _, le_refl _, by simp⟩
  | schedSelfEvent d p =>
    simp only [execOp] at h
    cases hs : s.sched_self_event d p with
    | none => rw [hs] at h; simp at h
    | some s3 =>
      rw [hs] at h
      simp at h
      obtain ⟨rfl, rfl⟩ := h
      unfold Scheduler.sched_self_event at hs
      split at hs
      · simp at hs
        subst hs
        exact ⟨schedInv_push hinv d _, le_refl _, by simp⟩
      · simp at hs
  | popNext =>
    simp only [execOp] at h
    cases hst : s.sim_status with
    | Failure =>
      have hne : s.next_event = some (.EndSimulation, s) := by
        simp [Scheduler.next_event, hst]
      rw [hne] at h
      simp at h
      obtain ⟨rfl, rfl⟩ := h
      exact ⟨hinv, le_refl _, by simp [EventType.isEnd]⟩
    | Ok =>
      cases hpop : popMin s.events with
      | none =>
        have hne : s.next_event = some (.EndSimulation, s) := by
          simp [Scheduler.next_event, hst, hpop]
        rw [hne] at h
        simp at h
        obtain ⟨rfl, rfl⟩ := h
        exact ⟨hinv, le_refl _, by simp [EventType.isEnd]⟩
      | some q =>
        obtain ⟨e, rest⟩ := q
        have hle : s.curr_time ≤ e.time := hinv e (popMin_mem hpop)
        have hne := next_event_ok_some hst hpop hinv
        rw [hne] at h
        simp at h
        obtain ⟨rfl, rfl⟩ := h
        refine ⟨?_, hle, ?_⟩
        · intro x hx
          exact popMin_le hpop x (popMin_rest_mem hpop hx)
        · intro t ht
          split at ht <;> simp_all

theorem execOps_inv {α ε : Type} [Inhabited α] {s s2 : Scheduler α ε}
    {ops : List (SchedOp α)} {tr : List SimTime} (hinv : SchedInv s)
    (h : execOps s ops = some (s2, tr)) :
    SchedInv s2 ∧ s.curr_time ≤ s2.curr_time ∧
      List.Chain' (· ≤ ·) (s.curr_time :: tr) ∧ ∀ t ∈ tr, t ≤ s2.curr_time := by
  induction ops generalizing s tr with
  | nil =>
    simp only [execOps] at h
    simp at h
    obtain ⟨rfl, rfl⟩ := h
    exact ⟨hinv, le_refl _, by simp, by simp⟩
  | cons op rest ih =>
    simp only [execOps] at h
    cases h1 : execOp s op with
    | none => rw [h1] at h; simp at h
    | some p =>
      obtain ⟨sm, tr1⟩ := p
      rw [h1] at h
      simp only at h
      cases h2 : execOps sm rest with
      | none => rw [h2] at h; simp at h
      | some q =>
        obtain ⟨sf, tr2⟩ := q
        rw [h2] at h
        simp at h
        obtain ⟨rfl, rfl⟩ := h
        obtain ⟨hinv1, hle1, htr1⟩ := execOp_inv hinv h1
        obtain ⟨hinv2, hle2, hch2, htr2⟩ := ih hinv1 h2
        refine ⟨hinv2, le_trans hle1 hle2, ?_, ?_⟩
        · rcases htr1e : tr1 with _ | ⟨t, tl⟩
          · subst htr1e
            simp only [List.nil_append]
            exact chain'_le_of_le hle1 hch2
          · have hts : t = sm.curr_time := htr1 t (by simp [htr1e])
            have htl : tl = [] := by
              cases op with
              | popNext =>
                subst htr1e
                simp only [execOp] at h1
                cases hne : s.next_event with
                | none => rw [hne] at h1; simp at h1
                | some r =>
                  obtain ⟨ev, s3⟩ := r
                  rw [hne] at h1
                  simp at h1
                  obtain ⟨h1a, h1b⟩ := h1
                  split at h1b <;> simp_all
              | sendMsgDelayed d sender ch m =>
                simp only [execOp] at h1
                simp at h1
                simp [htr1e] at h1
              | schedReceiveMsg d receiver ch m =>
                simp only [execOp] at h1
                simp at h1
                simp [htr1e] at h1
              | schedSelfEvent d p2 =>
                simp only [execOp] at h1
                cases hs : s.sched_self_event d p2 with
                | none => rw [hs] at h1; simp at h1
                | some s3 => rw [hs] at h1; simp at h1; simp [htr1e] at h1
            subst htl
            subst hts
            simp only [List.cons_append, List.nil_append]
            rw [List.chain'_cons]
            exact ⟨hle1, hch2⟩
        · intro t ht
          rcases List.mem_append.1 ht with ht1 | ht2
          · exact (htr1 t ht1) ▸ hle2
          · exact htr2 t ht2

theorem execOps_append {α ε : Type} [Inhabited α] {s s2 : Scheduler α ε}
    {ops1 ops2 : List (SchedOp α)} {tr : List SimTime}
    (h : execOps s (ops1 ++ ops2) = some (s2, tr)) :
    ∃ s1 tr1 tr2, execOps s ops1 = some (s1, tr1) ∧
      execOps s1 ops2 = some (s2, tr2) ∧ tr = tr1 ++ tr2 := by
  induction ops1 generalizing s tr with
  | nil =>
    exact ⟨s, [], tr, by simp [execOps], h, by simp⟩
  | cons op rest ih =>
    simp only [List.cons_append, execOps] at h ⊢
    cases h1 : execOp s op with
    | none => rw [h1] at h; simp at h
    | some p =>
      obtain ⟨sm, tr1⟩ := p
      rw [h1] at h
      simp only at h
      simp only [List.append_eq] at h
      cases h2 : execOps sm (rest ++ ops2) with
      | none => rw [h2] at h; simp at h
      | some q =>
        obtain ⟨sf, trf⟩ := q
        rw [h2] at h
        simp at h
        obtain ⟨rfl, rfl⟩ := h
        obtain ⟨s1, trA, trB, hA, hB, hAB⟩ := ih h2
        refine ⟨s1, tr1 ++ trA, trB, ?_, hB, by simp [hAB]⟩
        simp [hA]

/-- Claim C1: for every sequence of scheduling calls (`send_msg_delayed`,
`sched_receive_msg`, `sched_self_event`) interleaved with `next_event`
(pop_next) calls, run from a fresh `Scheduler`, successive pops return
events in non-decreasing time order, `current_time` is non-decreasing
across the whole run (any prefix's clock is at most the full run's clock),
and any attempt to advance the scheduler clock to a time earlier than the
current time is a fatal assertion failure. -/
theorem scheduler_time_monotone {α ε : Type} [Inhabited α] [Inhabited ε]
    (ops1 ops2 : List (SchedOp α)) (s1 s2 : Scheduler α ε)
    (tr1 tr2 : List SimTime)
    (h1 : execOps Scheduler.new ops1 = some (s1, tr1))
    (h2 : execOps Scheduler.new (ops1 ++ ops2) = some (s2, tr2)) :
    List.Chain' (· ≤ ·) tr2 ∧ s1.curr_time ≤ s2.curr_time ∧
      ∀ t u : SimTime, u < t → SimTime.advance_to t u = none := by
  obtain ⟨hinv2, hle2, hch2, htr2⟩ := execOps_inv schedInv_new h2
  refine ⟨hch2.tail, ?_, ?_⟩
  · obtain ⟨sm, trA, trB, hA, hB, hAB⟩ := execOps_append h2
    rw [h1] at hA
    simp at hA
    obtain ⟨rfl, rfl⟩ := hA
    obtain ⟨hinv1, hle1, _, _⟩ := execOps_inv schedInv_new h1
    obtain ⟨_, hle, _, _⟩ := execOps_inv hinv1 hB
    exact hle
  · intro t u hut
    unfold SimTime.advance_to
    rw [if_neg (Nat.not_le.mpr hut)]

/-- Concrete instantiation of claim C1: schedule one message send five
nanoseconds out, then pop it. -/
theorem scheduler_time_monotone_witness :
    (execOps (Scheduler.new : Scheduler Nat Unit)
        [SchedOp.sendMsgDelayed 5 1 2 7] =
      some (⟨[⟨5, EventType.MsgSendEvent 1 2 7⟩], 0, (), SimStatus.Ok⟩, [])) ∧
    (execOps (Scheduler.new : Scheduler Nat Unit)
        ([SchedOp.sendMsgDelayed 5 1 2 7] ++ [SchedOp.popNext]) =
      some (⟨[], 5, (), SimStatus.Ok⟩, [5])) ∧
    (List.Chain' (· ≤ ·) [5] ∧ (0 : SimTime) ≤ 5 ∧
      ∀ t u : SimTime, u < t → SimTime.advance_to t u = none) :=
  ⟨by decide, by decide,
   scheduler_time_monotone [SchedOp.sendMsgDelayed 5 1 2 7] [SchedOp.popNext]
     ⟨[⟨5, EventType.MsgSendEvent 1 2 7⟩], 0, (), SimStatus.Ok⟩
     ⟨[], 5, (), SimStatus.Ok⟩ [] [5] (by decide) (by decide)⟩

/-- Claim C2: `next_event` (pop_next) returns `EndSimulation` exactly when
the queue is empty or the sticky failure flag was set by `sim_error`
(mark_failure); under the flag it returns `EndSimulation` leaving the state
(queue included) untouched, even if events remain queued; otherwise it
removes an earliest-time event, advances the current time to that event's
time and returns it. -/
theorem next_event_spec {α ε : Type} (s : Scheduler α ε)
    (hinv : SchedInv s) (hno : NoEndStored s) :
    (s.sim_status = .Failure → s.next_event = some (.EndSimulation, s)) ∧
    (s.sim_status = .Ok → s.events = [] → s.next_event = some (.EndSimulation, s)) ∧
    (s.sim_status = .Ok → s.events ≠ [] →
      ∃ e rest, popMin s.events = some (e, rest) ∧
        e ∈ s.events ∧ (∀ x ∈ s.events, e.time ≤ x.time) ∧
        s.events.Perm (e :: rest) ∧ e.event.isEnd = false ∧
        s.next_event = some (e.event, { s with events := rest, curr_time := e.time })) := by
  refine ⟨?_, ?_, ?_⟩
  · intro hst
    simp [Scheduler.next_event, hst]
  · intro hst hev
    simp [Scheduler.next_event, hst, hev, popMin]
  · intro hst hev
    cases hpop : popMin s.events with
    | none => exact absurd ((popMin_eq_none_iff s.events).1 hpop) hev
    | some p =>
      obtain ⟨e, rest⟩ := p
      exact ⟨e, rest, rfl, popMin_mem hpop, popMin_le hpop, popMin_perm hpop,
             hno e (popMin_mem hpop), next_event_ok_some hst hpop hinv⟩

/-- Concrete instantiation of claim C2: an Ok scheduler at time 2 with a
single queued receive event at time 5. -/
theorem next_event_spec_witness :
    SchedInv (⟨[⟨5, EventType.MsgRcvEvent 1 2 3⟩], 2, (), SimStatus.Ok⟩ : Scheduler Nat Unit) ∧
    NoEndStored (⟨[⟨5, EventType.MsgRcvEvent 1 2 3⟩], 2, (), SimStatus.Ok⟩ : Scheduler Nat Unit) ∧
    ((SimStatus.Ok = SimStatus.Failure →
        Scheduler.next_event ⟨[⟨5, EventType.MsgRcvEvent 1 2 3⟩], 2, (), SimStatus.Ok⟩ =
          some (.EndSimulation, ⟨[⟨5, EventType.MsgRcvEvent 1 2 3⟩], 2, (), SimStatus.Ok⟩)) ∧
     (SimStatus.Ok = SimStatus.Ok →
        ([⟨5, EventType.MsgRcvEvent 1 2 3⟩] : List (ScheduledEvent Nat)) = [] →
        Scheduler.next_event ⟨[⟨5, EventType.MsgRcvEvent 1 2 3⟩], 2, (), SimStatus.Ok⟩ =
          some (.EndSimulation, ⟨[⟨5, EventType.MsgRcvEvent 1 2 3⟩], 2, (), SimStatus.Ok⟩)) ∧
     (SimStatus.Ok = SimStatus.Ok →
        ([⟨5, EventType.MsgRcvEvent 1 2 3⟩] : List (ScheduledEvent Nat)) ≠ [] →
        ∃ e rest, popMin [⟨5, EventType.MsgRcvEvent 1 2 3⟩] = some (e, rest) ∧
          e ∈ [(⟨5, EventType.MsgRcvEvent 1 2 3⟩ : ScheduledEvent Nat)] ∧
          (∀ x ∈ [(⟨5, EventType.MsgRcvEvent 1 2 3⟩ : ScheduledEvent Nat)], e.time ≤ x.time) ∧
          ([(⟨5, EventType.MsgRcvEvent 1 2 3⟩ : ScheduledEvent Nat)]).Perm (e :: rest) ∧
          e.event.isEnd = false ∧
          Scheduler.next_event ⟨[⟨5, EventType.MsgRcvEvent 1 2 3⟩], 2, (), SimStatus.Ok⟩ =
            some (e.event, ⟨rest, e.time, (), SimStatus.Ok⟩))) :=
  ⟨by unfold SchedInv; decide, by unfold NoEndStored; decide,
   next_event_spec ⟨[⟨5, EventType.MsgRcvEvent 1 2 3⟩], 2, (), SimStatus.Ok⟩
     (by unfold SchedInv; decide) (by unfold NoEndStored; decide)⟩

theorem lookupA_insertA_self {V : Type} (k : Nat) (v : V) (l : AMap V) :
    lookupA k (insertA k v l) = some v := by
  simp [lookupA, insertA, List.find?]

theorem find?_filter_ne {V : Type} {k a : Nat} (hka : k ≠ a) (l : AMap V) :
    List.find? (fun p => p.1 == k) (l.filter (fun p => p.1 != a)) =
      List.find? (fun p => p.1 == k) l := by
  induction l with
  | nil => rfl
  | cons hd t ih =>
    obtain ⟨b, w⟩ := hd
    by_cases hba : b = a
    · subst hba
      rw [List.filter_cons, if_neg (by simp)]
      rw [List.find?_cons_of_neg _ (by simp [Ne.symm hka])]
      exact ih
    · rw [List.filter_cons, if_pos (by simp [hba])]
      by_cases hbk : b = k
      · subst hbk
        rw [List.find?_cons_of_pos _ (by simp), List.find?_cons_of_pos _ (by simp)]
      · rw [List.find?_cons_of_neg _ (by simp [hbk]), List.find?_cons_of_neg _ (by simp [hbk])]
        exact ih

theorem lookupA_insertA_ne {V : Type} {k a : Nat} (hka : k ≠ a) (v : V) (l : AMap V) :
    lookupA k (insertA a v l) = lookupA k l := by
  simp only [lookupA, insertA]
  rw [List.find?_cons_of_neg _ (by simp [Ne.symm hka])]
  rw [find?_filter_ne hka]

theorem lookupA_eq_none_iff {V : Type} (k : Nat) (l : AMap V) :
    lookupA k l = none ↔ k ∉ keysA l := by
  induction l with
  | nil => simp [lookupA, keysA]
  | cons hd t ih =>
    obtain ⟨b, w⟩ := hd
    by_cases hbk : b = k
    · subst hbk
      simp [lookupA, keysA, List.find?_cons_of_pos]
    · simp only [lookupA, keysA] at ih ⊢
      rw [List.find?_cons_of_neg _ (by simp [hbk])]
      simp [hbk, Ne.symm hbk, ih]

theorem lookupA_some_mem {V : Type} {k : Nat} {v : V} {l : AMap V}
    (h : lookupA k l = some v) : k ∈ keysA l := by
  by_contra hk
  rw [← lookupA_eq_none_iff] at hk
  rw [h] at hk
  simp at hk

/-- Claim C9: `send_msg_delayed` enqueues a `MsgSendEvent` stamped exactly
`curr_time + timedelta` and `sched_receive_msg` enqueues a `MsgRcvEvent`
stamped exactly `curr_time + timedelta`; neither call changes the current
time (nor, incidentally, the status flag). -/
theorem schedule_delayed_timestamps {α ε : Type} (s : Scheduler α ε)
    (timedelta : SimTimeDelta) (sender receiver : ComponentId)
    (channel : ChannelId) (message : α) :
    (s.send_msg_delayed timedelta sender channel message).events =
        s.events ++ [⟨s.curr_time + timedelta, .MsgSendEvent sender channel message⟩] ∧
    (s.send_msg_delayed timedelta sender channel message).curr_time = s.curr_time ∧
    (s.sched_receive_msg timedelta receiver channel message).events =
        s.events ++ [⟨s.curr_time + timedelta, .MsgRcvEvent channel receiver message⟩] ∧
    (s.sched_receive_msg timedelta receiver channel message).curr_time = s.curr_time :=
  ⟨rfl, rfl, rfl, rfl⟩

/-- Claim C8: `sched_self_event` is valid only while the current time is
exactly zero — enforced by a runtime assertion whose failure is fatal — and
on success it enqueues a `ProcessEvent` whose sender and receiver are both
the given component, at time `curr_time + timedelta`. -/
theorem sched_self_event_spec {α ε : Type} [Inhabited α] (s : Scheduler α ε)
    (timedelta : SimTimeDelta) (process : ComponentId) :
    (SimTime.is_zero s.curr_time = false →
      s.sched_self_event timedelta process = none) ∧
    (SimTime.is_zero s.curr_time = true →
      s.sched_self_event timedelta process =
        some { s with events :=
          s.events ++ [⟨s.curr_time + timedelta, .ProcessEvent process process default⟩] }) := by
  constructor
  · intro h
    simp [Scheduler.sched_self_event, h]
  · intro h
    simp [Scheduler.sched_self_event, h, heapPush]

/-- Concrete instantiation of claim C8: at time zero the self-event is
enqueued; at a nonzero time the assertion fires. -/
theorem sched_self_event_spec_witness :
    (SimTime.is_zero (0 : SimTime) = true ∧
      Scheduler.sched_self_event (⟨[], 0, (), SimStatus.Ok⟩ : Scheduler Nat Unit) 3 4 =
        some ⟨[⟨3, EventType.ProcessEvent 4 4 0⟩], 0, (), SimStatus.Ok⟩) ∧
    (SimTime.is_zero (7 : SimTime) = false ∧
      Scheduler.sched_self_event (⟨[], 7, (), SimStatus.Ok⟩ : Scheduler Nat Unit) 3 4 = none) :=
  ⟨⟨by decide,
    (sched_self_event_spec (⟨[], 0, (), SimStatus.Ok⟩ : Scheduler Nat Unit) 3 4).2 (by decide)⟩,
   ⟨by decide,
    (sched_self_event_spec (⟨[], 7, (), SimStatus.Ok⟩ : Scheduler Nat Unit) 3 4).1 (by decide)⟩⟩

/-- Claim C10 (implicit): the driver resolves handles with unguarded
`unwrap`s — `step` looks up the popped event's target component or channel,
and `add_channel` looks up both endpoint components — so dispatching an
event addressed to an unregistered id, or calling `add_channel` with an
unregistered `ComponentId`, is an immediate fatal panic (`none`), not a
recoverable error. -/
theorem step_unwrap_panics {κ ε α : Type} (ops : ComponentOps κ ε α)
    (pol : ChannelId → SimTimeDelta) (g : Nat) (sim : Simulation κ ε α)
    (e : ScheduledEvent α) (rest : List (ScheduledEvent α)) (p0 p1 : ComponentId)
    (hpop : popMin sim.scheduler.events = some (e, rest))
    (hle : sim.scheduler.curr_time ≤ e.time) :
    (∀ sender receiver pl, e.event = .ProcessEvent sender receiver pl →
      lookupA receiver sim.components = none → Simulation.step ops sim = none) ∧
    (∀ sender ch pl, e.event = .MsgSendEvent sender ch pl →
      lookupA ch sim.channels = none → Simulation.step ops sim = none) ∧
    (∀ ch receiver pl, e.event = .MsgRcvEvent ch receiver pl →
      lookupA receiver sim.components = none → Simulation.step ops sim = none) ∧
    (lookupA p0 sim.components = none →
      Simulation.add_channel ops pol g sim p0 p1 = none) ∧
    (∀ c0, lookupA p0 sim.components = some c0 → p1 ≠ p0 →
      lookupA p1 sim.components = none →
      Simulation.add_channel ops pol g sim p0 p1 = none) := by
  have hnlt : ¬ e.time < sim.scheduler.curr_time := Nat.not_lt.mpr hle
  refine ⟨?_, ?_, ?_, ?_, ?_⟩
  · intro sender receiver pl he hlook
    simp [Simulation.step, hpop, hnlt, he, hlook]
  · intro sender ch pl he hlook
    simp [Simulation.step, hpop, hnlt, he, hlook]
  · intro ch receiver pl he hlook
    simp [Simulation.step, hpop, hnlt, he, hlook]
  · intro hlook
    simp [Simulation.add_channel, generate_next_id, hlook]
  · intro c0 hc0 hne hlook
    simp [Simulation.add_channel, generate_next_id, hc0,
          lookupA_insertA_ne hne, hlook]

/-- Concrete instantiation of claim C10: a queued `ProcessEvent` addressed
to unregistered component 9 makes `step` panic, and `add_channel` with the
unregistered endpoint 9 panics. -/
theorem step_unwrap_panics_witness :
    (popMin ([⟨5, EventType.ProcessEvent 1 9 0⟩] : List (ScheduledEvent Nat)) =
      some (⟨5, EventType.ProcessEvent 1 9 0⟩, [])) ∧
    (0 : SimTime) ≤ 5 ∧
    Simulation.step tallyOps
      ⟨[], [], ⟨[⟨5, EventType.ProcessEvent 1 9 0⟩], 0, (), SimStatus.Ok⟩, ()⟩ = none ∧
    Simulation.add_channel tallyOps (fun _ => 2) 10
      ⟨[], [], ⟨[⟨5, EventType.ProcessEvent 1 9 0⟩], 0, (), SimStatus.Ok⟩, ()⟩ 9 1 = none :=
  ⟨by decide, by decide,
   (step_unwrap_panics tallyOps (fun _ => 2) 10
      ⟨[], [], ⟨[⟨5, EventType.ProcessEvent 1 9 0⟩], 0, (), SimStatus.Ok⟩, ()⟩
      ⟨5, EventType.ProcessEvent 1 9 0⟩ [] 9 1 (by decide) (by decide)).1
     1 9 0 rfl (by decide),
   (step_unwrap_panics tallyOps (fun _ => 2) 10
      ⟨[], [], ⟨[⟨5, EventType.ProcessEvent 1 9 0⟩], 0, (), SimStatus.Ok⟩, ()⟩
      ⟨5, EventType.ProcessEvent 1 9 0⟩ [] 9 1 (by decide) (by decide)).2.2.2.1
     (by decide)⟩

/-- Claim C5 (channel.rs is modelled from the spec): a message handed to a
fixed-delay channel via `message_from` by endpoint `sender` at current time
`t` schedules exactly one `MsgRcvEvent`, addressed to the other endpoint, at
time exactly `t + delay`, never back to the sender; and when the driver pops
that event it dispatches it to the other endpoint's `receive_msg` with the
clock standing at exactly `t + delay`. -/
theorem channel_delivery_spec {κ ε α : Type} (ops : ComponentOps κ ε α)
    (c : Channel) (sender : ComponentId) (message : α) (s : Scheduler α ε)
    (hend : sender = c.left ∨ sender = c.right) (hlr : c.left ≠ c.right) :
    ∃ other, other = (if sender = c.left then c.right else c.left) ∧
      other ≠ sender ∧
      Channel.message_from c sender message s =
        some { s with events :=
          s.events ++ [⟨s.curr_time + c.delay, .MsgRcvEvent c.id other message⟩] } ∧
      (∀ (sim : Simulation κ ε α) (cb : κ),
        sim.scheduler.events = [⟨s.curr_time + c.delay, .MsgRcvEvent c.id other message⟩] →
        sim.scheduler.curr_time ≤ s.curr_time + c.delay →
        lookupA other sim.components = some cb →
        Simulation.step ops sim =
          some ({ sim with
                    components := insertA other
                      (ops.receive_msg cb c.id message
                        { sim.scheduler with events := [],
                                             curr_time := s.curr_time + c.delay }
                        sim.env).1 sim.components,
                    scheduler :=
                      (ops.receive_msg cb c.id message
                        { sim.scheduler with events := [],
                                             curr_time := s.curr_time + c.delay }
                        sim.env).2.1,
                    env :=
                      (ops.receive_msg cb c.id message
                        { sim.scheduler with events := [],
                                             curr_time := s.curr_time + c.delay }
                        sim.env).2.2 }, true)) := by
  refine ⟨if sender = c.left then c.right else c.left, rfl, ?_, ?_, ?_⟩
  · by_cases hsl : sender = c.left
    · simp only [if_pos hsl]
      rw [hsl]
      exact Ne.symm hlr
    · simp only [if_neg hsl]
      rcases hend with h | h
      · exact absurd h hsl
      · rw [h]
        exact hlr
  · by_cases hsl : sender = c.left
    · simp [Channel.message_from, hsl, Scheduler.sched_receive_msg, heapPush]
    · rcases hend with h | h
      · exact absurd h hsl
      · simp [Channel.message_from, hsl, h, Ne.symm hlr, Scheduler.sched_receive_msg, heapPush]
  · intro sim cb hev hlect hcb
    have hpop : popMin sim.scheduler.events =
        some (⟨s.curr_time + c.delay,
               .MsgRcvEvent c.id (if sender = c.left then c.right else c.left) message⟩, []) := by
      rw [hev]
      rfl
    have hnlt : ¬ s.curr_time + c.delay < sim.scheduler.curr_time := Nat.not_lt.mpr hlect
    have hcurr : (if sim.scheduler.curr_time < s.curr_time + c.delay
        then s.curr_time + c.delay else sim.scheduler.curr_time) = s.curr_time + c.delay := by
      by_cases hlt : sim.scheduler.curr_time < s.curr_time + c.delay
      · rw [if_pos hlt]
      · rw [if_neg hlt]
        exact le_antisymm hlect (Nat.le_of_not_lt hlt)
    simp [Simulation.step, hpop, hnlt, hcb, hcurr]

/-- Concrete instantiation of claim C5: channel 7 between endpoints 1 and 2
with delay 4; endpoint 1 hands in a message at time 3 and exactly one
receive event for endpoint 2 at time 7 is scheduled. -/
theorem channel_delivery_spec_witness :
    ((1 : ComponentId) = 1 ∨ (1 : ComponentId) = 2) ∧ (1 : ComponentId) ≠ 2 ∧
    Channel.message_from (⟨7, 1, 2, 4⟩ : Channel) 1 (9 : Nat)
        (⟨[], 3, (), SimStatus.Ok⟩ : Scheduler Nat Unit) =
      some ⟨[⟨7, EventType.MsgRcvEvent 7 2 9⟩], 3, (), SimStatus.Ok⟩ := by
  refine ⟨Or.inl rfl, by decide, ?_⟩
  obtain ⟨other, ho, hne, hmf, hdisp⟩ :=
    channel_delivery_spec tallyOps (⟨7, 1, 2, 4⟩ : Channel) 1 (9 : Nat)
      (⟨[], 3, (), SimStatus.Ok⟩ : Scheduler Nat Unit) (Or.inl rfl) (by decide)
  have h2 : other = 2 := by
    rw [ho]
    decide
  subst h2
  exact hmf

theorem terminateAll_keys {κ ε α : Type} (ops : ComponentOps κ ε α) :
    ∀ (l : ComponentsMap κ) (env : ε), keysA (terminateAll ops l env).1 = keysA l := by
  intro l
  induction l with
  | nil => intro env; rfl
  | cons hd t ih =>
    intro env
    obtain ⟨k, c⟩ := hd
    simp only [terminateAll, keysA, List.map_cons]
    rw [← keysA, ← keysA, ih]

theorem terminateAll_lookup {κ ε α : Type} (ops : ComponentOps κ ε α) :
    ∀ (l : ComponentsMap κ) (env : ε) (k : Nat) (c : κ),
      lookupA k l = some c →
      ∃ e2, lookupA k (terminateAll ops l env).1 = some (ops.terminate c e2).1 := by
  intro l
  induction l with
  | nil =>
    intro env k c h
    simp [lookupA] at h
  | cons hd t ih =>
    intro env k c h
    obtain ⟨b, w⟩ := hd
    by_cases hbk : b = k
    · subst hbk
      simp only [lookupA] at h
      rw [List.find?_cons_of_pos _ (by simp)] at h
      simp at h
      subst h
      refine ⟨env, ?_⟩
      simp only [terminateAll, lookupA]
      rw [List.find?_cons_of_pos _ (by simp)]
      rfl
    · simp only [lookupA] at h
      rw [List.find?_cons_of_neg _ (by simp [hbk])] at h
      obtain ⟨e2, he2⟩ := ih (ops.terminate w env).2 k c h
      refine ⟨e2, ?_⟩
      simp only [terminateAll, lookupA]
      rw [List.find?_cons_of_neg _ (by simp [hbk])]
      exact he2

/-- Claim C6: `call_terminate(validate)` invokes `terminate` exactly once on
every registered component — the post-terminate map binds exactly the same
ids, each to the one-step `terminate` image of its old value — and then
applies the validation predicate exactly once to the complete final map;
the predicate returning false is a fatal end-of-run failure (panic). -/
theorem call_terminate_spec {κ ε α : Type} (ops : ComponentOps κ ε α)
    (sim : Simulation κ ε α) (validate : ComponentsMap κ → Bool) :
    keysA (terminateAll ops sim.components sim.env).1 = keysA sim.components ∧
    (∀ k c, lookupA k sim.components = some c →
      ∃ e2, lookupA k (terminateAll ops sim.components sim.env).1 =
        some (ops.terminate c e2).1) ∧
    (validate (terminateAll ops sim.components sim.env).1 = true →
      Simulation.call_terminate ops sim validate =
        some { sim with components := (terminateAll ops sim.components sim.env).1,
                        env := (terminateAll ops sim.components sim.env).2 }) ∧
    (validate (terminateAll ops sim.components sim.env).1 = false →
      Simulation.call_terminate ops sim validate = none) := by
  refine ⟨terminateAll_keys ops sim.components sim.env,
          fun k c h => terminateAll_lookup ops sim.components sim.env k c h, ?_, ?_⟩
  · intro hv
    simp [Simulation.call_terminate, hv]
  · intro hv
    simp [Simulation.call_terminate, hv]

/-- Concrete instantiation of claim C6: two components with tally states 10
and 20; both are terminated exactly once (tallies 11 and 21), a passing
predicate yields the final state, a failing one panics. -/
theorem call_terminate_spec_witness :
    (terminateAll tallyOps [(1, 10), (2, 20)] () = ([(1, 11), (2, 21)], ())) ∧
    (Simulation.call_terminate tallyOps
        ⟨[(1, 10), (2, 20)], [], ⟨[], 6, (), SimStatus.Ok⟩, ()⟩
        (fun m => m.length == 2) =
      some ⟨[(1, 11), (2, 21)], [], ⟨[], 6, (), SimStatus.Ok⟩, ()⟩) ∧
    (Simulation.call_terminate tallyOps
        ⟨[(1, 10), (2, 20)], [], ⟨[], 6, (), SimStatus.Ok⟩, ()⟩
        (fun m => m.length == 3) = none) := by
  refine ⟨by decide, ?_, ?_⟩
  · exact (call_terminate_spec tallyOps
      ⟨[(1, 10), (2, 20)], [], ⟨[], 6, (), SimStatus.Ok⟩, ()⟩
      (fun m => m.length == 2)).2.2.1 (by decide)
  · exact (call_terminate_spec tallyOps
      ⟨[(1, 10), (2, 20)], [], ⟨[], 6, (), SimStatus.Ok⟩, ()⟩
      (fun m => m.length == 3)).2.2.2 (by decide)

/-- Claim C7: for previously registered distinct component ids `a` and `b`
(and a counter value fresh for the simulation, as the shared counter always
is), `add_channel a b` mints the fresh id `g` (fresh: bound in neither map),
registers a channel with endpoints `a` and `b` under that id, and updates
exactly the two endpoint components, each by exactly one `add_channel g`
call, regardless of what was registered before. -/
theorem add_channel_spec {κ ε α : Type} (ops : ComponentOps κ ε α)
    (pol : ChannelId → SimTimeDelta) (g : Nat) (sim : Simulation κ ε α)
    (a b : ComponentId) (ca cb : κ)
    (ha : lookupA a sim.components = some ca)
    (hb : lookupA b sim.components = some cb)
    (hab : a ≠ b) (hfresh : KeysLt g sim) :
    g ∉ keysA sim.components ∧ g ∉ keysA sim.channels ∧
    ∃ sim2, Simulation.add_channel ops pol g sim a b = some (g + 1, sim2, g) ∧
      lookupA g sim2.channels = some (Channel.new g a b (pol g)) ∧
      lookupA a sim2.components = some (ops.add_channel ca g) ∧
      lookupA b sim2.components = some (ops.add_channel cb g) ∧
      (∀ k, k ≠ a → k ≠ b → lookupA k sim2.components = lookupA k sim.components) ∧
      (∀ k, k ≠ g → lookupA k sim2.channels = lookupA k sim.channels) := by
  obtain ⟨hfc, hfch⟩ := hfresh
  refine ⟨fun hmem => absurd (hfc g hmem) (lt_irrefl g),
          fun hmem => absurd (hfch g hmem) (lt_irrefl g), ?_⟩
  have hba : b ≠ a := Ne.symm hab
  have hlb : lookupA b (insertA a (ops.add_channel ca g) sim.components) = some cb := by
    rw [lookupA_insertA_ne hba]
    exact hb
  refine ⟨{ sim with
              channels := insertA g (Channel.new g a b (pol g)) sim.channels,
              components := insertA b (ops.add_channel cb g)
                (insertA a (ops.add_channel ca g) sim.components) }, ?_, ?_, ?_, ?_, ?_, ?_⟩
  · simp only [Simulation.add_channel, generate_next_id, ha, hlb]
  · exact lookupA_insertA_self g _ _
  · rw [lookupA_insertA_ne hab, lookupA_insertA_self]
  · exact lookupA_insertA_self b _ _
  · intro k hka hkb
    rw [lookupA_insertA_ne hkb, lookupA_insertA_ne hka]
  · intro k hkg
    rw [lookupA_insertA_ne hkg]

/-- Concrete instantiation of claim C7: components 1 and 2 registered,
counter at 3; the channel gets the fresh id 3 and each endpoint sees one
`add_channel 3` call. -/
theorem add_channel_spec_witness :
    (lookupA 1 ([(1, 10), (2, 20)] : ComponentsMap Nat) = some 10) ∧
    (lookupA 2 ([(1, 10), (2, 20)] : ComponentsMap Nat) = some 20) ∧
    (1 : ComponentId) ≠ 2 ∧
    KeysLt 3 (⟨[(1, 10), (2, 20)], [], ⟨[], 0, (), SimStatus.Ok⟩, ()⟩ :
      Simulation Nat Unit Nat) ∧
    (3 ∉ keysA ([(1, 10), (2, 20)] : ComponentsMap Nat) ∧
     3 ∉ keysA ([] : ChannelMap) ∧
     ∃ sim2, Simulation.add_channel tallyOps (fun _ => 4) 3
          ⟨[(1, 10), (2, 20)], [], ⟨[], 0, (), SimStatus.Ok⟩, ()⟩ 1 2 =
        some (3 + 1, sim2, 3) ∧
        lookupA 3 sim2.channels = some (Channel.new 3 1 2 4) ∧
        lookupA 1 sim2.components = some (tallyOps.add_channel 10 3) ∧
        lookupA 2 sim2.components = some (tallyOps.add_channel 20 3) ∧
        (∀ k, k ≠ 1 → k ≠ 2 →
          lookupA k sim2.components =
            lookupA k ([(1, 10), (2, 20)] : ComponentsMap Nat)) ∧
        (∀ k, k ≠ 3 → lookupA k sim2.channels = lookupA k ([] : ChannelMap))) :=
  ⟨by decide, by decide, by decide, by unfold KeysLt; decide,
   add_channel_spec tallyOps (fun _ => 4) 3
     ⟨[(1, 10), (2, 20)], [], ⟨[], 0, (), SimStatus.Ok⟩, ()⟩ 1 2 10 20
     (by decide) (by decide) (by decide) (by unfold KeysLt; decide)⟩

/-- Claim C3 concerns the interplay of `sim_error` (mark_failure) with the
driver loop.  `Scheduler::next_event` honours the sticky flag (first
conjunct: with the flag set it returns `EndSimulation`, dropping the queued
event), but `Simulation::step` in sim.rs pops the raw event heap directly
and never consults the flag, so the queued event IS dispatched after
`sim_error` — the registered component's tally rises from 0 to 1 (second
conjunct) and `run` processes it before terminating on the then-empty queue
(third conjunct).  `call_terminate` does still execute afterwards, with the
flag still set (fourth conjunct).  This exhibits, at a concrete input, the
divergence between the specified graceful drop and the driver as coded. -/
theorem step_dispatches_despite_failure :
    (Scheduler.next_event
        (⟨[⟨0, EventType.ProcessEvent 1 1 0⟩], 0, (), SimStatus.Failure⟩ :
          Scheduler Nat Unit) =
      some (.EndSimulation,
        ⟨[⟨0, EventType.ProcessEvent 1 1 0⟩], 0, (), SimStatus.Failure⟩)) ∧
    (Simulation.step tallyOps
        ⟨[(1, 0)], [], ⟨[⟨0, EventType.ProcessEvent 1 1 0⟩], 0, (), SimStatus.Failure⟩, ()⟩ =
      some (⟨[(1, 1)], [], ⟨[], 0, (), SimStatus.Failure⟩, ()⟩, true)) ∧
    (Simulation.run tallyOps 2
        ⟨[(1, 0)], [], ⟨[⟨0, EventType.ProcessEvent 1 1 0⟩], 0, (), SimStatus.Failure⟩, ()⟩ =
      some ⟨[(1, 1)], [], ⟨[], 0, (), SimStatus.Failure⟩, ()⟩) ∧
    (Simulation.call_terminate tallyOps
        ⟨[(1, 1)], [], ⟨[], 0, (), SimStatus.Failure⟩, ()⟩ (fun m => m.length == 1) =
      some ⟨[(1, 2)], [], ⟨[], 0, (), SimStatus.Failure⟩, ()⟩) :=
  ⟨by decide, by decide, by decide, by decide⟩

/-- Claim C4 counterexample: in sim.rs the id counter is the process-wide
`static ID_COUNTER`, shared by every `Simulation` in the process and
initialized once at process start — NOT owned by one `Simulation` nor
initialized at `Simulation` construction.  Concretely: a freshly
constructed `Simulation` whose first `add_process` runs in a fresh process
mints id 1, but a freshly constructed `Simulation` whose first
`add_process` runs after another instance already minted an id gets 2 —
the mint depends on the other instance's activity, refuting "never shared
across independent Simulation instances". -/
theorem id_counter_shared_counterexample :
    (Simulation.add_process ID_COUNTER_INIT
        (Simulation.mkDefault : Simulation Unit Unit Nat) () unitBuild).2.2.2 = 1 ∧
    (Simulation.add_process
        (Simulation.add_process ID_COUNTER_INIT
          (Simulation.mkDefault : Simulation Unit Unit Nat) () unitBuild).1
        (Simulation.mkDefault : Simulation Unit Unit Nat) () unitBuild).2.2.2 = 2 ∧
    (2 : Nat) ≠ 1 :=
  ⟨by decide, by decide, by decide⟩

theorem add_channel_some_counter {κ ε α : Type} {ops : ComponentOps κ ε α}
    {pol : ChannelId → SimTimeDelta} {g g1 : Nat} {sim sim1 : Simulation κ ε α}
    {p0 p1 : ComponentId} {cid : ChannelId}
    (h : Simulation.add_channel ops pol g sim p0 p1 = some (g1, sim1, cid)) :
    g1 = g + 1 ∧ cid = g := by
  simp only [Simulation.add_channel, generate_next_id] at h
  split at h
  · simp at h
  · split at h
    · simp at h
    · simp at h
      exact ⟨h.1.symm, h.2.2.symm⟩

theorem execSetup_bounds {κ ε α β : Type} (ops : ComponentOps κ ε α)
    (pol : ChannelId → SimTimeDelta) (build : β → ComponentId → ε → β × κ × ε) :
    ∀ (l : List SetupOp) (g : Nat) (sim : Simulation κ ε α) (bst : β)
      (g2 : Nat) (sim2 : Simulation κ ε α) (bst2 : β) (ids : List Nat),
      execSetup ops pol build g sim bst l = some (g2, sim2, bst2, ids) →
      g ≤ g2 ∧ ∀ i ∈ ids, g ≤ i ∧ i < g2 := by
  intro l
  induction l with
  | nil =>
    intro g sim bst g2 sim2 bst2 ids h
    simp [execSetup] at h
    obtain ⟨rfl, -, -, rfl⟩ := h
    exact ⟨le_refl _, by simp⟩
  | cons op rest ih =>
    intro g sim bst g2 sim2 bst2 ids h
    cases op with
    | addProcess =>
      simp only [execSetup] at h
      cases h2 : execSetup ops pol build (Simulation.add_process g sim bst build).1
          (Simulation.add_process g sim bst build).2.1
          (Simulation.add_process g sim bst build).2.2.1 rest with
      | none => rw [h2] at h; simp at h
      | some q =>
        obtain ⟨ga, sima, bsta, idsa⟩ := q
        rw [h2] at h
        simp at h
        obtain ⟨rfl, -, -, rfl⟩ := h
        have e1 : (Simulation.add_process g sim bst build).1 = g + 1 := rfl
        have e2 : (Simulation.add_process g sim bst build).2.2.2 = g := rfl
        rw [e1] at h2
        obtain ⟨hle, hmem⟩ := ih (g + 1) _ _ _ _ _ _ h2
        rw [e2]
        refine ⟨le_trans (Nat.le_succ g) hle, ?_⟩
        intro i hi
        rcases List.mem_cons.1 hi with rfl | hi2
        · exact ⟨le_refl _, lt_of_lt_of_le (Nat.lt_succ_self i) hle⟩
        · obtain ⟨h1, h2'⟩ := hmem i hi2
          exact ⟨le_trans (Nat.le_succ g) h1, h2'⟩
    | addChannel p0 p1 =>
      simp only [execSetup] at h
      cases hac : Simulation.add_channel ops pol g sim p0 p1 with
      | none => rw [hac] at h; simp at h
      | some t =>
        obtain ⟨g1, sim1, cid⟩ := t
        rw [hac] at h
        simp only at h
        obtain ⟨hg1, hcid⟩ := add_channel_some_counter hac
        subst hg1
        rw [hcid] at h
        cases h2 : execSetup ops pol build (g + 1) sim1 bst rest with
        | none => rw [h2] at h; simp at h
        | some q =>
          obtain ⟨ga, sima, bsta, idsa⟩ := q
          rw [h2] at h
          simp at h
          obtain ⟨rfl, -, -, rfl⟩ := h
          obtain ⟨hle, hmem⟩ := ih (g + 1) _ _ _ _ _ _ h2
          refine ⟨le_trans (Nat.le_succ g) hle, ?_⟩
          intro i hi
          rcases List.mem_cons.1 hi with rfl | hi2
          · exact ⟨le_refl _, lt_of_lt_of_le (Nat.lt_succ_self i) hle⟩
          · obtain ⟨h1, h2'⟩ := hmem i hi2
            exact ⟨le_trans (Nat.le_succ g) h1, h2'⟩

theorem execSetup_pairwise {κ ε α β : Type} (ops : ComponentOps κ ε α)
    (pol : ChannelId → SimTimeDelta) (build : β → ComponentId → ε → β × κ × ε) :
    ∀ (l : List SetupOp) (g : Nat) (sim : Simulation κ ε α) (bst : β)
      (g2 : Nat) (sim2 : Simulation κ ε α) (bst2 : β) (ids : List Nat),
      execSetup ops pol build g sim bst l = some (g2, sim2, bst2, ids) →
      List.Pairwise (· < ·) ids := by
  intro l
  induction l with
  | nil =>
    intro g sim bst g2 sim2 bst2 ids h
    simp [execSetup] at h
    obtain ⟨-, -, -, rfl⟩ := h
    exact List.Pairwise.nil
  | cons op rest ih =>
    intro g sim bst g2 sim2 bst2 ids h
    cases op with
    | addProcess =>
      simp only [execSetup] at h
      cases h2 : execSetup ops pol build (Simulation.add_process g sim bst build).1
          (Simulation.add_process g sim bst build).2.1
          (Simulation.add_process g sim bst build).2.2.1 rest with
      | none => rw [h2] at h; simp at h
      | some q =>
        obtain ⟨ga, sima, bsta, idsa⟩ := q
        rw [h2] at h
        simp at h
        obtain ⟨-, -, -, rfl⟩ := h
        have e1 : (Simulation.add_process g sim bst build).1 = g + 1 := rfl
        have e2 : (Simulation.add_process g sim bst build).2.2.2 = g := rfl
        rw [e1] at h2
        rw [e2]
        refine List.pairwise_cons.2 ⟨?_, ih (g + 1) _ _ _ _ _ _ h2⟩
        intro i hi
        have := (execSetup_bounds ops pol build rest (g + 1) _ _ _ _ _ _ h2).2 i hi
        omega
    | addChannel p0 p1 =>
      simp only [execSetup] at h
      cases hac : Simulation.add_channel ops pol g sim p0 p1 with
      | none => rw [hac] at h; simp at h
      | some t =>
        obtain ⟨g1, sim1, cid⟩ := t
        rw [hac] at h
        simp only at h
        obtain ⟨hg1, hcid⟩ := add_channel_some_counter hac
        subst hg1
        rw [hcid] at h
        cases h2 : execSetup ops pol build (g + 1) sim1 bst rest with
        | none => rw [h2] at h; simp at h
        | some q =>
          obtain ⟨ga, sima, bsta, idsa⟩ := q
          rw [h2] at h
          simp at h
          obtain ⟨-, -, -, rfl⟩ := h
          refine List.pairwise_cons.2 ⟨?_, ih (g + 1) _ _ _ _ _ _ h2⟩
          intro i hi
          have := (execSetup_bounds ops pol build rest (g + 1) _ _ _ _ _ _ h2).2 i hi
          omega

/-- Claim C4 (amended): the handle counter minting ComponentIds and
ChannelIds is a single monotonic counter shared across both id spaces, so
along any setup sequence on a Simulation every minted id (component and
channel ids alike) is strictly increasing, hence pairwise distinct — in
particular a component id never collides with a channel id — and the
counter never decreases.  The counter is process-wide shared state, not
per-Simulation: the id minted by `add_process` is exactly the threaded
counter value, whatever the Simulation instance (last conjunct); it is the
static `ID_COUNTER`, initialized once at process start. -/
theorem ids_unique_spec {κ ε α β : Type} (ops : ComponentOps κ ε α)
    (pol : ChannelId → SimTimeDelta) (build : β → ComponentId → ε → β × κ × ε)
    (l : List SetupOp) (g g2 : Nat) (sim sim2 : Simulation κ ε α) (bst bst2 : β)
    (ids : List Nat)
    (h : execSetup ops pol build g sim bst l = some (g2, sim2, bst2, ids)) :
    List.Pairwise (· < ·) ids ∧ ids.Nodup ∧ g ≤ g2 ∧
    ∀ (sim3 : Simulation κ ε α) (bst3 : β),
      (Simulation.add_process g sim3 bst3 build).2.2.2 = g := by
  have hp := execSetup_pairwise ops pol build l g sim bst g2 sim2 bst2 ids h
  exact ⟨hp, hp.imp Nat.ne_of_lt,
         (execSetup_bounds ops pol build l g sim bst g2 sim2 bst2 ids h).1,
         fun sim3 bst3 => rfl⟩

/-- Concrete instantiation of claim C4 (amended): two `add_process` calls
then one `add_channel` from counter 1 mint ids 1, 2, 3 — all distinct, the
channel id colliding with neither component id. -/
theorem ids_unique_spec_witness :
    (execSetup tallyOps (fun _ => 5) (fun b _ e => (b, 0, e)) ID_COUNTER_INIT
        (Simulation.mkDefault : Simulation Nat Unit Nat) ()
        [SetupOp.addProcess, SetupOp.addProcess, SetupOp.addChannel 1 2] =
      some (4, ⟨[(2, 0), (1, 0)], [(3, ⟨3, 1, 2, 5⟩)], ⟨[], 0, (), SimStatus.Ok⟩, ()⟩,
            (), [1, 2, 3])) ∧
    (List.Pairwise (· < ·) [1, 2, 3] ∧ List.Nodup [1, 2, 3] ∧ ID_COUNTER_INIT ≤ 4 ∧
     ∀ (sim3 : Simulation Nat Unit Nat) (bst3 : Unit),
       (Simulation.add_process ID_COUNTER_INIT sim3 bst3 (fun b _ e => (b, 0, e))).2.2.2 =
         ID_COUNTER_INIT) :=
  ⟨by decide,
   ids_unique_spec tallyOps (fun _ => 5) (fun b _ e => (b, 0, e))
     [SetupOp.addProcess, SetupOp.addProcess, SetupOp.addChannel 1 2]
     ID_COUNTER_INIT 4 (Simulation.mkDefault : Simulation Nat Unit Nat)
     ⟨[(2, 0), (1, 0)], [(3, ⟨3, 1, 2, 5⟩)], ⟨[], 0, (), SimStatus.Ok⟩, ()⟩ () ()
     [1, 2, 3] (by decide)⟩
